import Mathlib

/-!
Shallow embedding of the Poorman HTTP/1.1 server (httpServer/go/main.go).

Byte strings are modelled as `List Char`, one `Char` per byte (inputs of
interest are ASCII).  Fallible Go functions return `Option`; Go run-time
panics are a distinct `crash` outcome of the parser; the socket is a pure
finite byte stream, so the only read error the model can produce is
end-of-stream (Go `io.EOF`).
-/

/-- Byte strings of the Go program, one `Char` per byte. -/
abbrev GoStr := List Char

/-- The CRLF line terminator `"\r\n"`. -/
def crlf : GoStr := ['\r', '\n']

/-- Whitespace as trimmed by Go `strings.TrimSpace`: of `unicode.IsSpace`
(space, tab, newline, vertical tab, form feed, carriage return, U+0085,
U+00A0) only the six single-byte ASCII characters can occur in the byte
model. -/
def isGoSpace (c : Char) : Bool :=
  c == ' ' || c == '\t' || c == '\n' || c == '\x0b' || c == '\x0c' || c == '\r'

/-- `bufio.Reader.ReadString('\n')` on the remaining stream: the line up to
and including the first newline plus the rest of the stream, or `none` when
the stream holds no newline (Go then returns the partial data together with
`io.EOF`, and the partial data has been consumed from the reader). -/
def readLine : GoStr → Option (GoStr × GoStr)
  | [] => none
  | c :: cs =>
    if c = '\n' then some ([c], cs)
    else
      match readLine cs with
      | none => none
      | some (l, r) => some (c :: l, r)

/-- Go `strings.TrimSuffix`. -/
def trimSuffix (s suf : GoStr) : GoStr :=
  if suf.isSuffixOf s then s.take (s.length - suf.length) else s

/-- Left half of Go `strings.TrimSpace`. -/
def trimLeft (s : GoStr) : GoStr := s.dropWhile isGoSpace

/-- Right half of Go `strings.TrimSpace`. -/
def trimRight (s : GoStr) : GoStr := (s.reverse.dropWhile isGoSpace).reverse

/-- Go `strings.TrimSpace`. -/
def trimSpace (s : GoStr) : GoStr := trimRight (trimLeft s)

/-- Go `strings.Split(s, " ")`: cut around every single space; the result is
always nonempty and `Split("", " ") = [""]`. -/
def splitSpace : GoStr → List GoStr
  | [] => [[]]
  | c :: r =>
    if c = ' ' then [] :: splitSpace r
    else (c :: (splitSpace r).headI) :: (splitSpace r).tail

/-- Go `strings.SplitN(s, ":", 2)`: split at the first colon only; a string
without a colon stays in one piece. -/
def splitN2Colon (s : GoStr) : List GoStr :=
  if ':' ∈ s then
    [s.takeWhile (fun c => !(c == ':')), (s.dropWhile (fun c => !(c == ':'))).tail]
  else [s]

/-- Lookup in the model of a Go `map[string]string` (association list with
at most one entry per key). -/
def mapLookup : List (GoStr × GoStr) → GoStr → Option GoStr
  | [], _ => none
  | (k', v) :: t, k => if k' = k then some v else mapLookup t k

/-- Assignment `m[k] = v` on the model of a Go `map[string]string`:
overwrite the existing entry or append a new one. -/
def mapInsert : List (GoStr × GoStr) → GoStr → GoStr → List (GoStr × GoStr)
  | [], k, v => [(k, v)]
  | (k', v') :: t, k, v =>
    if k' = k then (k', v) :: t else (k', v') :: mapInsert t k v

/-- The decimal digit character for `n < 10`. -/
def digitChar (n : Nat) : Char := Char.ofNat (48 + n)

/-- Fuel-based accumulator loop producing the decimal digits of `n` in front
of `acc`; `fuel > n` always suffices since `n / 10 < n` for `n ≥ 10`. -/
def natToDecAux : Nat → Nat → GoStr → GoStr
  | 0, _, acc => acc
  | fuel + 1, n, acc =>
    if n < 10 then digitChar n :: acc
    else natToDecAux fuel (n / 10) (digitChar (n % 10) :: acc)

/-- Decimal rendering of a natural number (Go `%d` / `strconv.Itoa` on
non-negative values). -/
def natToDec (n : Nat) : GoStr := natToDecAux (n + 1) n []

/-- Decimal rendering of a Go `int` (`fmt` verb `%d`). -/
def intToDec (i : Int) : GoStr :=
  if i < 0 then '-' :: natToDec i.natAbs else natToDec i.toNat

/-- ASCII decimal digit test. -/
def goIsDigit (c : Char) : Bool := 48 ≤ c.toNat && c.toNat ≤ 57

/-- Numeric value of an ASCII digit. -/
def digitVal (c : Char) : Nat := c.toNat - 48

/-- Parse a nonempty all-digit string as a natural number (the digit loop of
Go `strconv.ParseInt` in base 10). -/
def parseNatDigits (s : GoStr) : Option Nat :=
  if s ≠ [] ∧ s.all goIsDigit then
    some (s.foldl (fun a c => a * 10 + digitVal c) 0)
  else none

/-- Largest Go `int` (64-bit). -/
def goIntMax : Int := 2 ^ 63 - 1

/-- Smallest Go `int` (64-bit). -/
def goIntMin : Int := -(2 ^ 63)

/-- Range check of Go `strconv.ParseInt`: out-of-range values yield
`ErrRange`, i.e. a non-nil error. -/
def finishAtoi (sgn : Int) (n : Nat) : Option Int :=
  if sgn * (n : Int) < goIntMin ∨ goIntMax < sgn * (n : Int) then none
  else some (sgn * (n : Int))

/-- Go `strconv.Atoi`: optional sign, then at least one digit, with a 64-bit
range check.  Note that a leading minus sign is accepted. -/
def atoi (s : GoStr) : Option Int :=
  match s with
  | [] => none
  | c :: r =>
    if c = '+' then (parseNatDigits r).bind (finishAtoi 1)
    else if c = '-' then (parseNatDigits r).bind (finishAtoi (-1))
    else (parseNatDigits (c :: r)).bind (finishAtoi 1)

/-- The header loop of `NewRequest` (main.go lines 90-110), fuel-indexed:
each iteration reads one line, stops at an empty line (after stripping one
CRLF) or at end-of-stream (discarding the partially read line, as the Go
code discards `headerLine` when `ReadString` returns `io.EOF`), splits at
the first colon, trims name and value, and stores them; a line without a
colon is skipped.  Each iteration consumes at least one byte, so fuel equal
to the stream length makes the fuel case unreachable. -/
def readHeadersAux : Nat → List (GoStr × GoStr) → GoStr → List (GoStr × GoStr) × GoStr
  | 0, m, _ => (m, [])
  | fuel + 1, m, s =>
    match readLine s with
    | none => (m, [])
    | some (line, rest) =>
      let hl := trimSuffix line crlf
      if hl = [] then (m, rest)
      else
        match splitN2Colon hl with
        | [k, v] => readHeadersAux fuel (mapInsert m (trimSpace k) (trimSpace v)) rest
        | _ => readHeadersAux fuel m rest

/-- The header loop of `NewRequest`, started with sufficient fuel. -/
def readHeaders (m : List (GoStr × GoStr)) (s : GoStr) : List (GoStr × GoStr) × GoStr :=
  readHeadersAux s.length m s

/-- The `Req` struct of main.go. -/
structure Req where
  method : GoStr
  uri : GoStr
  headers : List (GoStr × GoStr)
  body : GoStr
  deriving DecidableEq

/-- The distinct non-nil error returns of `NewRequest`: the `io.EOF` from
reading a request line with no newline (main.go line 78), the invalid
`Content-Length` error (line 116), and the invalid-body error from
`io.ReadFull` (line 123). -/
inductive ParseErr where
  | noRequestLine
  | invalidContentLength
  | truncatedBody
  deriving DecidableEq

/-- The run-time panics `NewRequest` can hit: indexing `sliceOfLine[1]` out
of range (line 87) and `make([]byte, length)` with negative length
(line 119). -/
inductive CrashKind where
  | uriIndexOutOfRange
  | negativeBodyAlloc
  deriving DecidableEq

/-- Outcome of `NewRequest`: a request, an error return, or a panic. -/
inductive ParseOutcome where
  | ok (r : Req)
  | err (e : ParseErr)
  | crash (k : CrashKind)
  deriving DecidableEq

/-- The header key the body stage looks up (main.go line 113). -/
def contentLengthKey : GoStr := "Content-Length".toList

/-- `NewRequest` (main.go lines 71-136) over a pure byte stream. -/
def newRequest (s : GoStr) : ParseOutcome :=
  match readLine s with
  | none => .err .noRequestLine
  | some (line, rest) =>
    match splitSpace (trimSpace (trimSuffix line crlf)) with
    | method :: uri :: _ =>
      match readHeaders [] rest with
      | (headers, rest2) =>
        match mapLookup headers contentLengthKey with
        | none => .ok ⟨method, uri, headers, []⟩
        | some clv =>
          match atoi clv with
          | none => .err .invalidContentLength
          | some n =>
            if n < 0 then .crash .negativeBodyAlloc
            else if rest2.length < n.toNat then .err .truncatedBody
            else .ok ⟨method, uri, headers, rest2.take n.toNat⟩
    | _ => .crash .uriIndexOutOfRange

/-- The reason-phrase table of Go `net/http.StatusText` (status.go). -/
def statusTable : List (Int × GoStr) :=
  [(100, "Continue".toList),
   (101, "Switching Protocols".toList),
   (102, "Processing".toList),
   (103, "Early Hints".toList),
   (200, "OK".toList),
   (201, "Created".toList),
   (202, "Accepted".toList),
   (203, "Non-Authoritative Information".toList),
   (204, "No Content".toList),
   (205, "Reset Content".toList),
   (206, "Partial Content".toList),
   (207, "Multi-Status".toList),
   (208, "Already Reported".toList),
   (226, "IM Used".toList),
   (300, "Multiple Choices".toList),
   (301, "Moved Permanently".toList),
   (302, "Found".toList),
   (303, "See Other".toList),
   (304, "Not Modified".toList),
   (305, "Use Proxy".toList),
   (307, "Temporary Redirect".toList),
   (308, "Permanent Redirect".toList),
   (400, "Bad Request".toList),
   (401, "Unauthorized".toList),
   (402, "Payment Required".toList),
   (403, "Forbidden".toList),
   (404, "Not Found".toList),
   (405, "Method Not Allowed".toList),
   (406, "Not Acceptable".toList),
   (407, "Proxy Authentication Required".toList),
   (408, "Request Timeout".toList),
   (409, "Conflict".toList),
   (410, "Gone".toList),
   (411, "Length Required".toList),
   (412, "Precondition Failed".toList),
   (413, "Request Entity Too Large".toList),
   (414, "Request URI Too Long".toList),
   (415, "Unsupported Media Type".toList),
   (416, "Requested Range Not Satisfiable".toList),
   (417, "Expectation Failed".toList),
   (418, "I\x27m a teapot".toList),
   (421, "Misdirected Request".toList),
   (422, "Unprocessable Entity".toList),
   (423, "Locked".toList),
   (424, "Failed Dependency".toList),
   (425, "Too Early".toList),
   (426, "Upgrade Required".toList),
   (428, "Precondition Required".toList),
   (429, "Too Many Requests".toList),
   (431, "Request Header Fields Too Large".toList),
   (451, "Unavailable For Legal Reasons".toList),
   (500, "Internal Server Error".toList),
   (501, "Not Implemented".toList),
   (502, "Bad Gateway".toList),
   (503, "Service Unavailable".toList),
   (504, "Gateway Timeout".toList),
   (505, "HTTP Version Not Supported".toList),
   (506, "Variant Also Negotiates".toList),
   (507, "Insufficient Storage".toList),
   (508, "Loop Detected".toList),
   (510, "Not Extended".toList),
   (511, "Network Authentication Required".toList)]

/-- Go `net/http.StatusText`: the standard reason phrase of a status code,
or the empty string for a code outside the table. -/
def statusText (code : Int) : GoStr := (statusTable.lookup code).getD []

/-- `NewResponse` (main.go lines 149-155): the three `fmt.Sprintf` pieces
concatenated with the blank line and the body; `len(data)` is the byte
length of the body. -/
def newResponse (status : Int) (data : GoStr) (contentType : GoStr) : GoStr :=
  let responseStatus :=
    "HTTP/1.1 ".toList ++ intToDec status ++ ' ' :: statusText status ++ crlf
  let responseContentType := "Content-Type: ".toList ++ contentType ++ crlf
  let responseContentLength :=
    "Content-Length: ".toList ++ natToDec data.length ++ crlf
  responseStatus ++ responseContentType ++ responseContentLength ++ crlf ++ data

/-- Externally visible effects of one connection's handling: whether any
response bytes were written, whether `Close` was called on the connection,
whether a parse error was logged, and whether the goroutine panicked. -/
structure ConnEffects where
  wrote : Bool
  closedConn : Bool
  loggedErr : Bool
  crashed : Bool
  deriving DecidableEq

/-- The three route handlers of the `Mux` dispatch (main.go lines 164-181). -/
inductive HandlerId where
  | indexPage
  | aboutPage
  | inputData
  deriving DecidableEq

/-- The route dispatch of `Router.Mux` (main.go lines 164-181): the sequence
of handlers invoked for a request, mirroring the nested `if` statements; an
unmatched method/path pair invokes none. -/
def routerMux (r : Req) : List HandlerId :=
  (if r.method = "GET".toList then
    (if r.uri = "/".toList then [HandlerId.indexPage] else []) ++
      (if r.uri = "/about".toList then [HandlerId.aboutPage] else [])
  else []) ++
    (if r.method = "POST".toList then
      (if r.uri = "/".toList then [HandlerId.inputData] else [])
    else [])

/-- The effects of doing nothing to the connection. -/
def noConnEffects : ConnEffects := ⟨false, false, false, false⟩

/-- Sequential composition of connection effects. -/
def combineEffects (a b : ConnEffects) : ConnEffects :=
  ⟨a.wrote || b.wrote, a.closedConn || b.closedConn,
   a.loggedErr || b.loggedErr, a.crashed || b.crashed⟩

/-- `Router.Mux` at the effects level, with the handler bodies abstracted as
a map `he` from handler to effects (the handlers read files and templates,
which lie outside the byte-stream model). -/
def muxEffects (he : HandlerId → ConnEffects) (r : Req) : ConnEffects :=
  (routerMux r).foldl (fun acc h => combineEffects acc (he h)) noConnEffects

/-- `handleAccept` (main.go lines 60-69) at the effects level: on a parse
error it logs and returns — writing nothing and never calling `Close` — and
on success it runs the dispatcher; a parser panic crashes the goroutine. -/
def handleAccept (he : HandlerId → ConnEffects) (s : GoStr) : ConnEffects :=
  match newRequest s with
  | .ok r => muxEffects he r
  | .err _ => ⟨false, false, true, false⟩
  | .crash _ => ⟨false, false, false, true⟩

/-- The protocol-version token of a well-formed request line. -/
def httpVer : GoStr := "HTTP/1.1".toList

/-- A well-formed request-line token (method or URI): nonempty and free of
the whitespace characters the parser splits or trims on. -/
def ValidToken (t : GoStr) : Prop :=
  t ≠ [] ∧ ∀ c ∈ t, isGoSpace c = false

/-- A header pair that survives serialization and reparsing unchanged: the
name is nonempty, colon-free and newline-free, the value is newline-free,
and both carry no surrounding whitespace. -/
def ValidHeader (p : GoStr × GoStr) : Prop :=
  p.1 ≠ [] ∧ ':' ∉ p.1 ∧ '\n' ∉ p.1 ∧ '\n' ∉ p.2 ∧
    trimSpace p.1 = p.1 ∧ trimSpace p.2 = p.2

/-- Serialize one header as the wire line `Name: value\r\n`. -/
def encodeHeader (p : GoStr × GoStr) : GoStr :=
  p.1 ++ ':' :: ' ' :: p.2 ++ crlf

/-- Serialize a header block. -/
def encodeHeaders : List (GoStr × GoStr) → GoStr
  | [] => []
  | p :: t => encodeHeader p ++ encodeHeaders t

/-- Serialize a full request: request line, header block, empty line,
body. -/
def encodeRequest (m u : GoStr) (hs : List (GoStr × GoStr)) (b : GoStr) : GoStr :=
  m ++ ' ' :: u ++ ' ' :: httpVer ++ crlf ++ (encodeHeaders hs ++ (crlf ++ b))

/-- Fold a header list into a map, later entries overwriting earlier ones,
starting from `m`. -/
def buildMapFrom (m : List (GoStr × GoStr)) (hs : List (GoStr × GoStr)) :
    List (GoStr × GoStr) :=
  hs.foldl (fun acc p => mapInsert acc p.1 p.2) m

/-- The header map a list of header pairs should produce. -/
def buildMap (hs : List (GoStr × GoStr)) : List (GoStr × GoStr) :=
  buildMapFrom [] hs

/-- Specification-side definition, from the spec's words rather than the
source: the value the header mapping should associate to a key is that of
the LAST pair carrying the key ("last/only occurrence wins"). -/
def lastWins : List (GoStr × GoStr) → GoStr → Option GoStr
  | [], _ => none
  | p :: t, k =>
    match lastWins t k with
    | some v => some v
    | none => if p.1 = k then some p.2 else none

/-! ## Helper lemmas -/

lemma readLine_append (a r : GoStr) (h : '\n' ∉ a) :
    readLine (a ++ '\n' :: r) = some (a ++ ['\n'], r) := by
  induction a with
  | nil => simp [readLine]
  | cons c t ih =>
    have hc : c ≠ '\n' := fun hc => h (by simp [hc])
    have ht : '\n' ∉ t := fun hm => h (by simp [hm])
    simp [readLine, hc, ih ht]

lemma readLine_eq_none (s : GoStr) (h : '\n' ∉ s) : readLine s = none := by
  induction s with
  | nil => rfl
  | cons c t ih =>
    have hc : c ≠ '\n' := fun hc => h (by simp [hc])
    have ht : '\n' ∉ t := fun hm => h (by simp [hm])
    simp [readLine, hc, ih ht]

lemma readLine_some (s l r : GoStr) (h : readLine s = some (l, r)) :
    l ≠ [] ∧ s = l ++ r := by
  induction s generalizing l r with
  | nil => simp [readLine] at h
  | cons c t ih =>
    by_cases hc : c = '\n'
    · subst hc
      simp [readLine] at h
      obtain ⟨hl, hr⟩ := h
      subst hl hr
      simp
    · simp only [readLine, if_neg hc] at h
      cases hrl : readLine t with
      | none => rw [hrl] at h; simp at h
      | some p =>
        obtain ⟨l', r'⟩ := p
        rw [hrl] at h
        simp at h
        obtain ⟨hl, hr⟩ := h
        obtain ⟨hne, hsplit⟩ := ih l' r' hrl
        subst hr
        constructor
        · intro hnil; rw [← hl] at hnil; simp at hnil
        · rw [← hl, hsplit]; simp

lemma trimSuffix_append_crlf (a : GoStr) : trimSuffix (a ++ crlf) crlf = a := by
  have hsuf : crlf.isSuffixOf (a ++ crlf) = true :=
    List.isSuffixOf_iff_suffix.mpr (List.suffix_append a crlf)
  have hlen : (a ++ crlf).length - crlf.length = a.length := by
    simp [crlf]
  rw [trimSuffix, if_pos hsuf, hlen, List.take_left' rfl]

lemma trimLeft_cons_space (s : GoStr) : trimLeft (' ' :: s) = trimLeft s := by
  simp [trimLeft, List.dropWhile_cons, isGoSpace]

lemma trimSpace_cons_space (s : GoStr) (h : trimSpace s = s) :
    trimSpace (' ' :: s) = s := by
  rw [trimSpace, trimLeft_cons_space]
  exact h

lemma trimLeft_eq_self (s : GoStr)
    (h : ∀ c, s.head? = some c → isGoSpace c = false) : trimLeft s = s := by
  cases s with
  | nil => rfl
  | cons c t => simp [trimLeft, List.dropWhile_cons, h c rfl]

lemma trimRight_eq_self (s : GoStr)
    (h : ∀ c, s.getLast? = some c → isGoSpace c = false) : trimRight s = s := by
  cases hrev : s.reverse with
  | nil =>
    have : s = [] := by simpa using congrArg List.reverse hrev
    simp [this, trimRight]
  | cons c t =>
    have hc : s.getLast? = some c := by
      rw [← List.head?_reverse, hrev]; rfl
    have : s.reverse.dropWhile isGoSpace = s.reverse := by
      rw [hrev]
      simp [List.dropWhile_cons, h c hc]
    simp [trimRight, this]

lemma trimSpace_eq_self (s : GoStr)
    (h1 : ∀ c, s.head? = some c → isGoSpace c = false)
    (h2 : ∀ c, s.getLast? = some c → isGoSpace c = false) : trimSpace s = s := by
  rw [trimSpace, trimLeft_eq_self s h1, trimRight_eq_self s h2]

lemma splitSpace_ne_nil (s : GoStr) : splitSpace s ≠ [] := by
  cases s with
  | nil => simp [splitSpace]
  | cons c t =>
    by_cases hc : c = ' ' <;> simp [splitSpace, hc]

lemma splitSpace_no_space (s : GoStr) (h : ' ' ∉ s) : splitSpace s = [s] := by
  induction s with
  | nil => rfl
  | cons c t ih =>
    have hc : c ≠ ' ' := fun hc => h (by simp [hc])
    have ht : ' ' ∉ t := fun hm => h (by simp [hm])
    simp [splitSpace, fun hc2 => hc hc2, ih ht]

lemma splitSpace_append (a r : GoStr) (h : ' ' ∉ a) :
    splitSpace (a ++ ' ' :: r) = a :: splitSpace r := by
  induction a with
  | nil => simp [splitSpace]
  | cons c t ih =>
    have hc : c ≠ ' ' := fun hc => h (by simp [hc])
    have ht : ' ' ∉ t := fun hm => h (by simp [hm])
    simp [splitSpace, fun hc2 => hc hc2, ih ht]

lemma takeWhile_until_colon (k v : GoStr) (hk : ':' ∉ k) :
    (k ++ ':' :: v).takeWhile (fun c => !(c == ':')) = k := by
  induction k with
  | nil => simp [List.takeWhile_cons]
  | cons c t ih =>
    have hc : c ≠ ':' := fun hc => hk (by simp [hc])
    have ht : ':' ∉ t := fun hm => hk (by simp [hm])
    simp [List.takeWhile_cons, hc, ih ht]

lemma dropWhile_until_colon (k v : GoStr) (hk : ':' ∉ k) :
    (k ++ ':' :: v).dropWhile (fun c => !(c == ':')) = ':' :: v := by
  induction k with
  | nil => simp [List.dropWhile_cons]
  | cons c t ih =>
    have hc : c ≠ ':' := fun hc => hk (by simp [hc])
    have ht : ':' ∉ t := fun hm => hk (by simp [hm])
    simp [List.dropWhile_cons, hc, ih ht]

lemma splitN2Colon_split (k v : GoStr) (hk : ':' ∉ k) :
    splitN2Colon (k ++ ':' :: v) = [k, v] := by
  have hmem : ':' ∈ k ++ ':' :: v := by simp
  rw [splitN2Colon, if_pos hmem, takeWhile_until_colon k v hk,
    dropWhile_until_colon k v hk]
  rfl

lemma splitN2Colon_no_colon (s : GoStr) (h : ':' ∉ s) : splitN2Colon s = [s] := by
  rw [splitN2Colon, if_neg h]

lemma readHeadersAux_eof (f : Nat) (m : List (GoStr × GoStr)) (s : GoStr)
    (h : '\n' ∉ s) : readHeadersAux f m s = (m, []) := by
  cases f with
  | zero => rfl
  | succ f => simp [readHeadersAux, readLine_eq_none s h]

lemma readHeadersAux_stop (f : Nat) (m : List (GoStr × GoStr)) (rest : GoStr) :
    readHeadersAux (f + 1) m ('\r' :: '\n' :: rest) = (m, rest) := by
  have hline : readLine ('\r' :: '\n' :: rest) = some (['\r', '\n'], rest) := by
    simp [readLine]
  have htrim : trimSuffix ['\r', '\n'] crlf = [] := by decide
  simp [readHeadersAux, hline, htrim]

lemma readHeadersAux_insert (f : Nat) (m : List (GoStr × GoStr))
    (k v rest : GoStr) (hk : ':' ∉ k) (hkn : '\n' ∉ k) (hvn : '\n' ∉ v) :
    readHeadersAux (f + 1) m (k ++ ':' :: v ++ crlf ++ rest) =
      readHeadersAux f (mapInsert m (trimSpace k) (trimSpace v)) rest := by
  have hshape : k ++ ':' :: v ++ crlf ++ rest
      = (k ++ ':' :: v ++ ['\r']) ++ '\n' :: rest := by
    simp [crlf]
  have hnl : '\n' ∉ k ++ ':' :: v ++ ['\r'] := by
    intro hmem
    simp only [List.mem_append, List.mem_cons, List.mem_singleton] at hmem
    rcases hmem with (h1 | h1 | h1) | h1
    · exact hkn h1
    · exact absurd h1 (by decide)
    · exact hvn h1
    · exact absurd h1 (by decide)
  have hline : readLine (k ++ ':' :: v ++ crlf ++ rest)
      = some ((k ++ ':' :: v) ++ crlf, rest) := by
    rw [hshape, readLine_append _ _ hnl]
    simp [crlf]
  have htrim : trimSuffix ((k ++ ':' :: v) ++ crlf) crlf = k ++ ':' :: v :=
    trimSuffix_append_crlf _
  have hne : k ++ ':' :: v ≠ [] := by simp
  simp only [readHeadersAux, hline, htrim, if_neg hne,
    splitN2Colon_split k v hk]

lemma readHeadersAux_skip (f : Nat) (m : List (GoStr × GoStr))
    (hl rest : GoStr) (hn : '\n' ∉ hl) (hc : ':' ∉ hl) (hne : hl ≠ []) :
    readHeadersAux (f + 1) m (hl ++ crlf ++ rest) =
      readHeadersAux f m rest := by
  have hshape : hl ++ crlf ++ rest = (hl ++ ['\r']) ++ '\n' :: rest := by
    simp [crlf]
  have hnl : '\n' ∉ hl ++ ['\r'] := by
    intro hmem
    simp only [List.mem_append, List.mem_singleton] at hmem
    rcases hmem with h1 | h1
    · exact hn h1
    · exact absurd h1 (by decide)
  have hline : readLine (hl ++ crlf ++ rest) = some (hl ++ crlf, rest) := by
    rw [hshape, readLine_append _ _ hnl]
    simp [crlf]
  have htrim : trimSuffix (hl ++ crlf) crlf = hl := trimSuffix_append_crlf _
  simp only [readHeadersAux, hline, htrim, if_neg hne,
    splitN2Colon_no_colon hl hc]

lemma readHeadersAux_fuel (f : Nat) :
    ∀ f' (m : List (GoStr × GoStr)) (s : GoStr), s.length ≤ f →
      s.length ≤ f' → readHeadersAux f m s = readHeadersAux f' m s := by
  induction f with
  | zero =>
    intro f' m s hf hf'
    have hs : s = [] := List.length_eq_zero.mp (Nat.le_zero.mp hf)
    subst hs
    cases f' with
    | zero => rfl
    | succ f' => simp [readHeadersAux, readLine]
  | succ f ih =>
    intro f' m s hf hf'
    cases f' with
    | zero =>
      have hs : s = [] := List.length_eq_zero.mp (Nat.le_zero.mp hf')
      subst hs
      simp [readHeadersAux, readLine]
    | succ f' =>
      cases hrl : readLine s with
      | none => simp [readHeadersAux, hrl]
      | some p =>
        obtain ⟨line, rest⟩ := p
        obtain ⟨hne, hsplit⟩ := readLine_some s line rest hrl
        have hlen : rest.length + 1 ≤ s.length := by
          rw [hsplit]
          simp
          cases line with
          | nil => exact absurd rfl hne
          | cons a b => simp; omega
        have hrf : rest.length ≤ f := by omega
        have hrf' : rest.length ≤ f' := by omega
        simp only [readHeadersAux, hrl]
        by_cases hhl : trimSuffix line crlf = []
        · simp [hhl]
        · simp only [if_neg hhl]
          cases hsp : splitN2Colon (trimSuffix line crlf) with
          | nil => exact ih f' m rest hrf hrf'
          | cons a t =>
            cases t with
            | nil => exact ih f' m rest hrf hrf'
            | cons b t2 =>
              cases t2 with
              | nil => exact ih f' _ rest hrf hrf'
              | cons c t3 => exact ih f' m rest hrf hrf'

lemma encodeHeaders_length_ge (hs : List (GoStr × GoStr)) :
    hs.length ≤ (encodeHeaders hs).length := by
  induction hs with
  | nil => simp
  | cons p t ih =>
    simp [encodeHeaders, encodeHeader]
    omega

lemma readHeadersAux_encode (hs : List (GoStr × GoStr)) :
    ∀ (f : Nat) (m : List (GoStr × GoStr)) (b : GoStr),
      (∀ p ∈ hs, ValidHeader p) →
      readHeadersAux (f + hs.length + 1) m (encodeHeaders hs ++ crlf ++ b)
        = (buildMapFrom m hs, b) := by
  induction hs with
  | nil =>
    intro f m b _
    have : encodeHeaders [] ++ crlf ++ b = '\r' :: '\n' :: b := by
      simp [encodeHeaders, crlf]
    rw [this]
    exact readHeadersAux_stop f m b
  | cons p t ih =>
    intro f m b hv
    obtain ⟨hne, hcol, hnn, hvn, htn, htv⟩ := hv p (List.mem_cons_self p t)
    have hshape : encodeHeaders (p :: t) ++ crlf ++ b
        = p.1 ++ ':' :: (' ' :: p.2) ++ crlf ++ (encodeHeaders t ++ crlf ++ b) := by
      simp [encodeHeaders, encodeHeader]
    have hvn' : '\n' ∉ ' ' :: p.2 := by
      intro hmem
      rcases List.mem_cons.mp hmem with h1 | h1
      · simp at h1
      · exact hvn h1
    have hfuel : f + (p :: t).length + 1 = (f + t.length + 1) + 1 := by
      simp
      omega
    rw [hshape, hfuel, readHeadersAux_insert _ m p.1 (' ' :: p.2) _ hcol hnn hvn']
    have htrimv : trimSpace (' ' :: p.2) = p.2 := trimSpace_cons_space p.2 htv
    rw [htn, htrimv, ih f (mapInsert m p.1 p.2) b
      (fun q hq => hv q (List.mem_cons_of_mem p hq))]
    rfl

lemma mapLookup_insert (m : List (GoStr × GoStr)) (k v k' : GoStr) :
    mapLookup (mapInsert m k v) k' =
      if k = k' then some v else mapLookup m k' := by
  induction m with
  | nil =>
    simp [mapInsert, mapLookup]
  | cons p t ih =>
    obtain ⟨a, b⟩ := p
    by_cases hak : a = k
    · subst hak
      by_cases hak' : a = k'
      · subst hak'
        simp [mapInsert, mapLookup]
      · simp [mapInsert, mapLookup, hak']
    · by_cases hak' : a = k'
      · subst hak'
        have hkk' : ¬ k = a := fun h => hak h.symm
        simp [mapInsert, mapLookup, hak, hkk']
      · simp [mapInsert, mapLookup, hak, hak', ih]

lemma mapLookup_buildMapFrom (hs : List (GoStr × GoStr)) :
    ∀ (m : List (GoStr × GoStr)) (k : GoStr),
      mapLookup (buildMapFrom m hs) k =
        match lastWins hs k with
        | some v => some v
        | none => mapLookup m k := by
  induction hs with
  | nil => intro m k; simp [buildMapFrom, lastWins]
  | cons p t ih =>
    intro m k
    have hstep : buildMapFrom m (p :: t) = buildMapFrom (mapInsert m p.1 p.2) t := by
      simp [buildMapFrom]
    rw [hstep, ih]
    cases hlw : lastWins t k with
    | some v => simp [lastWins, hlw]
    | none =>
      simp only [lastWins, hlw, mapLookup_insert]
      by_cases hpk : p.1 = k <;> simp [hpk]

lemma mapLookup_buildMap (hs : List (GoStr × GoStr)) (k : GoStr) :
    mapLookup (buildMap hs) k = lastWins hs k := by
  rw [buildMap, mapLookup_buildMapFrom]
  cases hlw : lastWins hs k with
  | some v => rfl
  | none => rfl

lemma validToken_no_newline (t : GoStr) (h : ValidToken t) : '\n' ∉ t := by
  intro hx
  have := h.2 '\n' hx
  simp [isGoSpace] at this

lemma validToken_no_space (t : GoStr) (h : ValidToken t) : ' ' ∉ t := by
  intro hx
  have := h.2 ' ' hx
  simp [isGoSpace] at this

lemma trimSpace_reqline (m u : GoStr) (hm : ValidToken m) (_hu : ValidToken u) :
    trimSpace (m ++ (' ' :: (u ++ (' ' :: httpVer))))
      = m ++ (' ' :: (u ++ (' ' :: httpVer))) := by
  apply trimSpace_eq_self
  · intro c hc
    cases m with
    | nil => exact absurd rfl hm.1
    | cons c0 t =>
      rw [List.cons_append, List.head?_cons] at hc
      injection hc with hc
      subst hc
      exact hm.2 c0 (List.mem_cons_self c0 t)
  · intro c hc
    have hver : httpVer = "HTTP/1.".toList ++ ['1'] := by decide
    have hshape : m ++ (' ' :: (u ++ (' ' :: httpVer)))
        = (m ++ (' ' :: (u ++ (' ' :: "HTTP/1.".toList)))) ++ ['1'] := by
      rw [hver]
      simp
    rw [hshape, List.getLast?_concat] at hc
    injection hc with hc
    subst hc
    decide

lemma splitSpace_reqline (m u : GoStr) (hm : ValidToken m) (hu : ValidToken u) :
    splitSpace (m ++ (' ' :: (u ++ (' ' :: httpVer)))) = [m, u, httpVer] := by
  rw [splitSpace_append m _ (validToken_no_space m hm),
    splitSpace_append u _ (validToken_no_space u hu),
    splitSpace_no_space httpVer (by decide)]

lemma readLine_encodeRequest (m u : GoStr) (hs : List (GoStr × GoStr))
    (b : GoStr) (hm : ValidToken m) (hu : ValidToken u) :
    readLine (encodeRequest m u hs b)
      = some ((m ++ (' ' :: (u ++ (' ' :: httpVer)))) ++ crlf,
          encodeHeaders hs ++ crlf ++ b) := by
  have hshape : encodeRequest m u hs b
      = (m ++ (' ' :: (u ++ (' ' :: (httpVer ++ ['\r'])))))
          ++ '\n' :: (encodeHeaders hs ++ crlf ++ b) := by
    simp [encodeRequest, crlf]
  have hnA : '\n' ∉ m ++ (' ' :: (u ++ (' ' :: (httpVer ++ ['\r'])))) := by
    intro hx
    rcases List.mem_append.mp hx with h | h
    · exact validToken_no_newline m hm h
    · rcases List.mem_cons.mp h with h | h
      · exact absurd h (by decide)
      · rcases List.mem_append.mp h with h | h
        · exact validToken_no_newline u hu h
        · rcases List.mem_cons.mp h with h | h
          · exact absurd h (by decide)
          · exact absurd h (by decide)
  rw [hshape, readLine_append _ _ hnA]
  simp [crlf]

/-! ## Claim theorems -/

/-- C2: for every status code with a standard reason phrase, every body and
every content-type string, `NewResponse` returns exactly the status line
`HTTP/1.1 <status> <reason-phrase>\r\n`, then exactly the two headers
`Content-Type: <ct>\r\n` and `Content-Length: <n>\r\n` in that order with
`n` the byte length of the body, then a blank line, then the body verbatim;
in particular `NewResponse(200, "success", "application/json")` is
byte-exact. -/
theorem newResponse_format_standard (status : Int) (data ct : GoStr)
    (_h : statusText status ≠ []) :
    newResponse status data ct
      = ("HTTP/1.1 ".toList ++ intToDec status ++ ' ' :: statusText status ++ crlf)
        ++ ("Content-Type: ".toList ++ ct ++ crlf)
        ++ ("Content-Length: ".toList ++ natToDec data.length ++ crlf)
        ++ crlf ++ data
    ∧ newResponse 200 "success".toList "application/json".toList
      = "HTTP/1.1 200 OK\r\nContent-Type: application/json\r\nContent-Length: 7\r\n\r\nsuccess".toList :=
  ⟨rfl, by decide⟩

/-- Witness for C2 at status 200. -/
theorem newResponse_format_standard_witness :
    newResponse 200 "success".toList "application/json".toList
      = "HTTP/1.1 200 OK\r\nContent-Type: application/json\r\nContent-Length: 7\r\n\r\nsuccess".toList :=
  (newResponse_format_standard 200 "success".toList "application/json".toList
    (by decide)).2

/-- C10: `NewResponse` is total on all integer status codes; for a code with
no standard reason phrase `http.StatusText` yields the empty string and the
status line degenerates to `HTTP/1.1 <status> \r\n` with a trailing space,
followed by the normal header block and body. -/
theorem newResponse_unknown_status (status : Int) (data ct : GoStr)
    (h : statusText status = []) :
    newResponse status data ct
      = ("HTTP/1.1 ".toList ++ intToDec status ++ ' ' :: crlf)
        ++ ("Content-Type: ".toList ++ ct ++ crlf)
        ++ ("Content-Length: ".toList ++ natToDec data.length ++ crlf)
        ++ crlf ++ data := by
  simp [newResponse, h]

/-- Witness for C10 at the non-standard status 299. -/
theorem newResponse_unknown_status_witness :
    newResponse 299 [] []
      = "HTTP/1.1 299 \r\nContent-Type: \r\nContent-Length: 0\r\n\r\n".toList := by
  rw [newResponse_unknown_status 299 [] [] (by decide)]
  decide

/-- C5: a request line with fewer than two whitespace-separated tokens (for
example `GET\r\n`, or a bare empty line) drives `NewRequest` into the
out-of-range access `sliceOfLine[1]`: the split of the trimmed request line
has length 1 and the parse panics instead of failing with a
`MalformedRequestLine` error. -/
theorem newRequest_short_request_line_crashes :
    newRequest "GET\r\n".toList = .crash .uriIndexOutOfRange
    ∧ newRequest "\r\n".toList = .crash .uriIndexOutOfRange
    ∧ (splitSpace (trimSpace (trimSuffix "GET\r\n".toList crlf))).length = 1 :=
  ⟨by decide, by decide, by decide⟩

/-- Counterexample to C4 as stated: `Content-Length: -5` does NOT produce an
`InvalidContentLength` error — `strconv.Atoi` accepts the negative value and
`make([]byte, -5)` panics. -/
theorem newRequest_negative_content_length_crashes :
    newRequest "POST / HTTP/1.1\r\nContent-Length: -5\r\n\r\n".toList
      = .crash .negativeBodyAlloc
    ∧ atoi "-5".toList = some (-5) :=
  ⟨by decide, by decide⟩

/-- C4 amended: a `Content-Length` value rejected by `strconv.Atoi`
(non-numeric, empty, or out of the 64-bit range) makes `NewRequest` fail
with the invalid-Content-Length error; a negative value that `Atoi` accepts
instead panics in `make([]byte, length)`. -/
theorem newRequest_content_length_error_cases
    (s line rest mtok utok : GoStr) (toks : List GoStr)
    (hdrs : List (GoStr × GoStr)) (rest2 clv : GoStr)
    (h1 : readLine s = some (line, rest))
    (h2 : splitSpace (trimSpace (trimSuffix line crlf)) = mtok :: utok :: toks)
    (h3 : readHeaders [] rest = (hdrs, rest2))
    (h4 : mapLookup hdrs contentLengthKey = some clv) :
    (atoi clv = none → newRequest s = .err .invalidContentLength)
    ∧ ∀ n : Int, atoi clv = some n → n < 0 →
        newRequest s = .crash .negativeBodyAlloc := by
  constructor
  · intro h5
    simp [newRequest, h1, h2, h3, h4, h5]
  · intro n h5 h6
    simp [newRequest, h1, h2, h3, h4, h5, h6]

/-- Witness for the amended C4: a non-numeric value errors, a negative value
panics. -/
theorem newRequest_content_length_error_cases_witness :
    newRequest "GET / HTTP/1.1\r\nContent-Length: abc\r\n\r\n".toList
      = .err .invalidContentLength
    ∧ newRequest "GET / HTTP/1.1\r\nContent-Length: -5\r\n\r\nxxxxx".toList
      = .crash .negativeBodyAlloc := by
  constructor
  · exact (newRequest_content_length_error_cases _
      "GET / HTTP/1.1\r\n".toList "Content-Length: abc\r\n\r\n".toList
      "GET".toList "/".toList ["HTTP/1.1".toList]
      [(contentLengthKey, "abc".toList)] [] "abc".toList
      (by decide) (by decide) (by decide) (by decide)).1 (by decide)
  · exact (newRequest_content_length_error_cases _
      "GET / HTTP/1.1\r\n".toList "Content-Length: -5\r\n\r\nxxxxx".toList
      "GET".toList "/".toList ["HTTP/1.1".toList]
      [(contentLengthKey, "-5".toList)] "xxxxx".toList "-5".toList
      (by decide) (by decide) (by decide) (by decide)).2 (-5) (by decide) (by decide)

/-- C3: when the declared `Content-Length` exceeds the bytes remaining after
the header block, `NewRequest` fails with the truncated-body error (the
non-nil return of `io.ReadFull`) and returns no request. -/
theorem newRequest_truncated_body
    (s line rest mtok utok : GoStr) (toks : List GoStr)
    (hdrs : List (GoStr × GoStr)) (rest2 clv : GoStr) (n : Int)
    (h1 : readLine s = some (line, rest))
    (h2 : splitSpace (trimSpace (trimSuffix line crlf)) = mtok :: utok :: toks)
    (h3 : readHeaders [] rest = (hdrs, rest2))
    (h4 : mapLookup hdrs contentLengthKey = some clv)
    (h5 : atoi clv = some n) (h6 : 0 ≤ n) (h7 : rest2.length < n.toNat) :
    newRequest s = .err .truncatedBody := by
  have hneg : ¬ n < 0 := by omega
  simp [newRequest, h1, h2, h3, h4, h5, hneg, h7]

/-- Witness for C3: `Content-Length: 10` with only 3 body bytes. -/
theorem newRequest_truncated_body_witness :
    newRequest "GET / HTTP/1.1\r\nContent-Length: 10\r\n\r\nabc".toList
      = .err .truncatedBody :=
  newRequest_truncated_body _
    "GET / HTTP/1.1\r\n".toList "Content-Length: 10\r\n\r\nabc".toList
    "GET".toList "/".toList ["HTTP/1.1".toList]
    [(contentLengthKey, "10".toList)] "abc".toList "10".toList 10
    (by decide) (by decide) (by decide) (by decide) (by decide) (by decide)
    (by decide)

/-- C8: with no `Content-Length` header in the parsed header block,
`NewRequest` succeeds with an empty body, whatever bytes remain unread in
the stream. -/
theorem newRequest_no_content_length_empty_body
    (s line rest mtok utok : GoStr) (toks : List GoStr)
    (hdrs : List (GoStr × GoStr)) (rest2 : GoStr)
    (h1 : readLine s = some (line, rest))
    (h2 : splitSpace (trimSpace (trimSuffix line crlf)) = mtok :: utok :: toks)
    (h3 : readHeaders [] rest = (hdrs, rest2))
    (h4 : mapLookup hdrs contentLengthKey = none) :
    newRequest s = .ok ⟨mtok, utok, hdrs, []⟩ := by
  simp [newRequest, h1, h2, h3, h4]

/-- Witness for C8: no Content-Length, 14 unread bytes left behind. -/
theorem newRequest_no_content_length_empty_body_witness :
    newRequest "GET / HTTP/1.1\r\nHost: a\r\n\r\nSOMEEXTRABYTES".toList
      = .ok ⟨"GET".toList, "/".toList, [("Host".toList, "a".toList)], []⟩ :=
  newRequest_no_content_length_empty_body _
    "GET / HTTP/1.1\r\n".toList "Host: a\r\n\r\nSOMEEXTRABYTES".toList
    "GET".toList "/".toList ["HTTP/1.1".toList]
    [("Host".toList, "a".toList)] "SOMEEXTRABYTES".toList
    (by decide) (by decide) (by decide) (by decide)

/-- Counterexample to C6 as stated: on a parse failure (here a truncated
body) `handleAccept` writes nothing and logs the error, but `closedConn`
stays `false` — the early return skips `Close`, so the connection does NOT
reach the Closed state. -/
theorem handleAccept_parse_error_leaves_open :
    newRequest "GET / HTTP/1.1\r\nContent-Length: 5\r\n\r\nab".toList
      = .err .truncatedBody
    ∧ handleAccept (fun _ => ⟨true, true, false, false⟩)
        "GET / HTTP/1.1\r\nContent-Length: 5\r\n\r\nab".toList
      = ⟨false, false, true, false⟩ :=
  ⟨by decide, by decide⟩

/-- C6 amended: on every parser error the connection sees no response bytes
and the error is logged, but the connection is left open (`Close` is never
called on this path), so the error path stops short of the Closed state. -/
theorem handleAccept_parse_error_effects (he : HandlerId → ConnEffects)
    (s : GoStr) (e : ParseErr) (h : newRequest s = .err e) :
    handleAccept he s = ⟨false, false, true, false⟩ := by
  simp [handleAccept, h]

/-- Witness for the amended C6 on a stream with no newline at all. -/
theorem handleAccept_parse_error_effects_witness :
    handleAccept (fun _ => ⟨true, true, false, false⟩)
      "GET / HTTP/1.1".toList = ⟨false, false, true, false⟩ :=
  handleAccept_parse_error_effects _ _ .noRequestLine (by decide)

/-- Counterexample to C7 as stated: a successfully parsed `GET
/unknown-path` request produces NO response bytes and no `Close` — even with
handlers that always write and close — rather than a 404 response. -/
theorem mux_unrouted_writes_nothing :
    newRequest "GET /unknown-path HTTP/1.1\r\n\r\n".toList
      = .ok ⟨"GET".toList, "/unknown-path".toList, [], []⟩
    ∧ handleAccept (fun _ => ⟨true, true, false, false⟩)
        "GET /unknown-path HTTP/1.1\r\n\r\n".toList = noConnEffects :=
  ⟨by decide, by decide⟩

/-- C7 amended: for every parsed request matching none of the three routes,
`Mux` invokes no handler, so nothing is written and the connection is not
closed — the connection hangs instead of receiving a 404. -/
theorem mux_unrouted_no_effects (he : HandlerId → ConnEffects) (r : Req)
    (h1 : ¬ (r.method = "GET".toList ∧ r.uri = "/".toList))
    (h2 : ¬ (r.method = "GET".toList ∧ r.uri = "/about".toList))
    (h3 : ¬ (r.method = "POST".toList ∧ r.uri = "/".toList)) :
    muxEffects he r = noConnEffects := by
  have hroutes : routerMux r = [] := by
    by_cases hg : r.method = "GET".toList
    · have hu1 : ¬ r.uri = "/".toList := fun h => h1 ⟨hg, h⟩
      have hu2 : ¬ r.uri = "/about".toList := fun h => h2 ⟨hg, h⟩
      have hp : ¬ r.method = "POST".toList := by rw [hg]; decide
      simp only [routerMux, hg, hp, if_true, if_false]
      simp
      exact ⟨hu1, hu2⟩
    · by_cases hp : r.method = "POST".toList
      · have hu1 : ¬ r.uri = "/".toList := fun h => h3 ⟨hp, h⟩
        simp only [routerMux, hg, hp, if_true, if_false]
        simp
        exact hu1
      · simp only [routerMux]
        rw [if_neg hg, if_neg hp]
        rfl
  rw [muxEffects, hroutes]
  rfl

/-- Witness for the amended C7 at `GET /unknown-path`. -/
theorem mux_unrouted_no_effects_witness :
    muxEffects (fun _ => ⟨true, true, false, false⟩)
      ⟨"GET".toList, "/unknown-path".toList, [], []⟩ = noConnEffects :=
  mux_unrouted_no_effects _ _ (by decide) (by decide) (by decide)

/-- C9: each header line is split at the first colon only, name and value
are trimmed of surrounding whitespace before storing; a line with no colon
is silently skipped; header reading stops at a pure-CRLF empty line
(consuming it) or at end-of-stream, the latter being a normal end of
headers, not an error. -/
theorem readHeaders_line_handling (m : List (GoStr × GoStr))
    (hl k v rest s : GoStr) (hnl : '\n' ∉ hl) :
    ('\n' ∉ s → readHeaders m s = (m, []))
    ∧ readHeaders m ('\r' :: '\n' :: rest) = (m, rest)
    ∧ (hl = k ++ ':' :: v → ':' ∉ k →
        readHeaders m (hl ++ crlf ++ rest)
          = readHeaders (mapInsert m (trimSpace k) (trimSpace v)) rest)
    ∧ (':' ∉ hl → hl ≠ [] →
        readHeaders m (hl ++ crlf ++ rest) = readHeaders m rest) := by
  refine ⟨?_, ?_, ?_, ?_⟩
  · intro hs
    exact readHeadersAux_eof _ m s hs
  · have hlen : ('\r' :: '\n' :: rest).length = rest.length + 1 + 1 := by simp
    rw [readHeaders, hlen]
    exact readHeadersAux_stop _ m rest
  · intro heq hk
    subst heq
    have hkn : '\n' ∉ k := fun hx => hnl (by simp [hx])
    have hvn : '\n' ∉ v := fun hx => hnl (by simp [hx])
    have hlen : ((k ++ ':' :: v) ++ crlf ++ rest).length
        = (k.length + v.length + rest.length + 2) + 1 := by
      simp [crlf]
      omega
    have hshape : (k ++ ':' :: v) ++ crlf ++ rest
        = k ++ ':' :: v ++ crlf ++ rest := by simp
    rw [readHeaders, hlen, hshape,
      readHeadersAux_insert _ m k v rest hk hkn hvn, readHeaders]
    exact readHeadersAux_fuel _ _ _ _ (by omega) le_rfl
  · intro hc hne
    have hlen : (hl ++ crlf ++ rest).length
        = (hl.length + rest.length + 1) + 1 := by
      simp [crlf]
      omega
    rw [readHeaders, hlen, readHeadersAux_skip _ m hl rest hnl hc hne,
      readHeaders]
    exact readHeadersAux_fuel _ _ _ _ (by omega) le_rfl

/-- Witness for C9: end-of-stream, empty line, a first-colon split with
trimming, and a colonless junk line, each at a concrete input. -/
theorem readHeaders_line_handling_witness :
    readHeaders [] "no newline here".toList = ([], [])
    ∧ readHeaders [] ('\r' :: '\n' :: "BODY".toList) = ([], "BODY".toList)
    ∧ readHeaders [] ("Host: x:y".toList ++ crlf ++ "\r\n".toList)
        = readHeaders
            (mapInsert [] (trimSpace "Host".toList) (trimSpace " x:y".toList))
            "\r\n".toList
    ∧ readHeaders [] ("junkline".toList ++ crlf ++ "\r\n".toList)
        = readHeaders [] "\r\n".toList := by
  refine ⟨?_, ?_, ?_, ?_⟩
  · exact (readHeaders_line_handling [] [] [] [] [] "no newline here".toList
      (by decide)).1 (by decide)
  · exact (readHeaders_line_handling [] [] [] [] "BODY".toList []
      (by decide)).2.1
  · exact (readHeaders_line_handling [] "Host: x:y".toList "Host".toList
      " x:y".toList "\r\n".toList [] (by decide)).2.2.1 (by decide) (by decide)
  · exact (readHeaders_line_handling [] "junkline".toList [] []
      "\r\n".toList [] (by decide)).2.2.2 (by decide) (by decide)

/-- C1: a valid request — request line `<METHOD> <URI> HTTP/1.1\r\n`, zero
or more valid `Name: value\r\n` headers, an empty line, and a body of
exactly the byte count declared by the `Content-Length` header (or no such
header and an empty body) — parses successfully into exactly its method,
URI, header mapping (last occurrence winning, keys case-sensitive as
received) and body bytes. -/
theorem newRequest_parses_valid_request (m u : GoStr)
    (hs : List (GoStr × GoStr)) (b : GoStr)
    (hm : ValidToken m) (hu : ValidToken u) (hh : ∀ p ∈ hs, ValidHeader p)
    (hcl : (∃ clv, mapLookup (buildMap hs) contentLengthKey = some clv
              ∧ atoi clv = some (b.length : Int))
         ∨ (mapLookup (buildMap hs) contentLengthKey = none ∧ b = [])) :
    newRequest (encodeRequest m u hs b) = .ok ⟨m, u, buildMap hs, b⟩
    ∧ ∀ k, mapLookup (buildMap hs) k = lastWins hs k := by
  refine ⟨?_, fun k => mapLookup_buildMap hs k⟩
  have hrl := readLine_encodeRequest m u hs b hm hu
  have htrim : trimSuffix ((m ++ (' ' :: (u ++ (' ' :: httpVer)))) ++ crlf) crlf
      = m ++ (' ' :: (u ++ (' ' :: httpVer))) := trimSuffix_append_crlf _
  have htsp := trimSpace_reqline m u hm hu
  have hsplit := splitSpace_reqline m u hm hu
  have hge := encodeHeaders_length_ge hs
  have hL : (encodeHeaders hs ++ crlf ++ b).length
      = ((encodeHeaders hs ++ crlf ++ b).length - hs.length - 1)
          + hs.length + 1 := by
    simp [crlf]
    omega
  have hrh : readHeaders [] (encodeHeaders hs ++ crlf ++ b) = (buildMap hs, b) := by
    rw [readHeaders, hL]
    exact readHeadersAux_encode hs _ [] b hh
  rcases hcl with ⟨clv, hlook, hatoi⟩ | ⟨hlook, hb⟩
  · have hneg : ¬ ((b.length : Int) < 0) := by omega
    have htn : ((b.length : Int)).toNat = b.length := Int.toNat_natCast b.length
    simp only [newRequest, hrl, htrim, htsp, hsplit, hrh, hlook, hatoi]
    rw [if_neg hneg]
    simp [htn]
  · subst hb
    simp only [newRequest, hrl, htrim, htsp, hsplit, hrh, hlook]

/-- Witness for C1: a two-header POST with a 2-byte body. -/
theorem newRequest_parses_valid_request_witness :
    newRequest (encodeRequest "POST".toList "/".toList
        [("Host".toList, "here".toList), (contentLengthKey, "2".toList)]
        "hi".toList)
      = .ok ⟨"POST".toList, "/".toList,
          [("Host".toList, "here".toList), (contentLengthKey, "2".toList)],
          "hi".toList⟩
    ∧ mapLookup (buildMap
        [("Host".toList, "here".toList), (contentLengthKey, "2".toList)])
        "Host".toList
      = some "here".toList := by
  have h := newRequest_parses_valid_request "POST".toList "/".toList
    [("Host".toList, "here".toList), (contentLengthKey, "2".toList)]
    "hi".toList
    (by constructor <;> decide) (by constructor <;> decide)
    (by intro p hp; fin_cases hp <;> exact ⟨by decide, by decide, by decide, by decide, by decide, by decide⟩)
    (Or.inl ⟨"2".toList, by decide, by decide⟩)
  refine ⟨?_, ?_⟩
  · have hbm : buildMap
        [("Host".toList, "here".toList), (contentLengthKey, "2".toList)]
      = [("Host".toList, "here".toList), (contentLengthKey, "2".toList)] := by
      decide
    rw [← hbm]
    exact h.1
  · rw [h.2 "Host".toList]
    decide
